import Mathlib

/-!
Shallow embedding of the two-pass assembler in `br_asm.py` (class `Assembler`
plus the lark grammar) and proofs about it.  Python exceptions and the
explicit `return None` fallbacks of the encoders are modelled as `none`;
the pass-2 `assert` and the `labels[label]` dict indexing are modelled as
explicit error outcomes.  Strings are Lean `String`s, machine words are `Int`,
addresses are `Nat`.
-/

namespace BrAsm

/-- A Python dict from label name to address: `self.labels`. -/
abbrev Labels := String → Option Nat

def emptyLabels : Labels := fun _ => none

/-- Dict assignment `self.labels[label] = address` (silent overwrite). -/
def record (k : String) (a : Nat) (L : Labels) : Labels :=
  fun x => if x = k then some a else L x

/-- Terminal kinds of the lark grammar.  `NONE` stands for the placeholder
`Token('','')` the driver uses for statement-less lines. -/
inductive TokType
  | LABELC
  | COMMENT
  | IMMINT
  | IMMLABEL
  | LABEL
  | INT
  | REG
  | NONE
deriving DecidableEq

/-- A lark token: terminal kind, the full matched text (for `IMMINT` and
`IMMLABEL` that text includes the leading `#`, for `LABELC` the trailing
colon), and its source position. -/
structure Token where
  typ : TokType
  value : String
  line : Nat
  column : Nat
deriving DecidableEq

/-- A parsed statement: one alternative of the grammar rule `stmt`, carrying
its operand tokens. -/
inductive Stmt
  | jp (t : Token)
  | ldi (dst i : Token)
  | ld (dst s1 : Token)
  | add (dst s1 s2 : Token)
  | sub (dst s1 s2 : Token)
  | neg (dst s1 : Token)
  | mul (dst s1 s2 : Token)
  | div (dst s1 s2 : Token)
  | mod (dst s1 s2 : Token)
  | round (dst s1 : Token)
  | floor (dst s1 : Token)
deriving DecidableEq

/-- The rule alias lark stores in `stmt.data`. -/
def Stmt.data : Stmt → String
  | .jp _ => "jp"
  | .ldi _ _ => "ldi"
  | .ld _ _ => "ld"
  | .add _ _ _ => "add"
  | .sub _ _ _ => "sub"
  | .neg _ _ => "neg"
  | .mul _ _ _ => "mul"
  | .div _ _ _ => "div"
  | .mod _ _ _ => "mod"
  | .round _ _ => "round"
  | .floor _ _ => "floor"

/-- The operand token list `stmt.children`. -/
def Stmt.children : Stmt → List Token
  | .jp t => [t]
  | .ldi d i => [d, i]
  | .ld d s => [d, s]
  | .add d s1 s2 => [d, s1, s2]
  | .sub d s1 s2 => [d, s1, s2]
  | .neg d s => [d, s]
  | .mul d s1 s2 => [d, s1, s2]
  | .div d s1 s2 => [d, s1, s2]
  | .mod d s1 s2 => [d, s1, s2]
  | .round d s => [d, s]
  | .floor d s => [d, s]

/-- One `line` production: optional `LABELC` token, optional statement,
optional `COMMENT` token. -/
structure Line where
  labelTok : Option Token
  stmt : Option Stmt
  comment : Option Token
deriving DecidableEq

/-- `children[0].value[:-1] if children[0] else ''`. -/
def Line.label (l : Line) : String :=
  match l.labelTok with
  | some t => t.value.dropRight 1
  | none => ""

/-- `children[2] if children[2] else ''` (a lark token is a `str`). -/
def commentStr (l : Line) : String :=
  match l.comment with
  | some t => t.value
  | none => ""

/-- The diagnostic text of `Assembler.error`:
`f"{token.line}:{token.column} Error: {msg}"`. -/
def errMsg (t : Token) (msg : String) : String :=
  toString t.line ++ ":" ++ toString t.column ++ " Error: " ++ msg

/-- The numeric value of an ASCII digit character, `none` otherwise. -/
def charDigit? (c : Char) : Option Nat :=
  if 48 ≤ c.toNat ∧ c.toNat ≤ 57 then some (c.toNat - 48) else none

/-- The value of a non-empty all-digit character list, as read by Python
`int`; `none` when empty or containing a non-digit. -/
def digitsVal (cs : List Char) : Option Nat :=
  if cs.isEmpty then none
  else if cs.all (fun c => (charDigit? c).isSome) then
    some (cs.foldl (fun a c => a * 10 + (c.toNat - 48)) 0)
  else none

/-- Python `int` on a character list: an optional sign followed by digits;
`none` models the `ValueError`. -/
def pyIntL (cs : List Char) : Option Int :=
  match cs with
  | c :: rest =>
    if c = '-' then (digitsVal rest).map (fun n => -(n : Int))
    else if c = '+' then (digitsVal rest).map (fun n => (n : Int))
    else (digitsVal cs).map (fun n => (n : Int))
  | [] => none

/-- `re.match("pc", s, re.IGNORECASE)`: does `s` start with `pc`,
case-insensitively? -/
def reMatchPC (s : String) : Bool :=
  match s.toList with
  | c0 :: c1 :: _ => (c0 == 'p' || c0 == 'P') && (c1 == 'c' || c1 == 'C')
  | _ => false

/-- `Assembler.reg`: the `PC` alias gives 9, otherwise the digit at
`token.value[1]`; `none` models the `IndexError`/`ValueError`. -/
def reg (t : Token) : Option Int :=
  if reMatchPC t.value then some 9
  else
    match t.value.toList with
    | _ :: c1 :: _ => (charDigit? c1).map (fun n => (n : Int))
    | _ => none

/-- `Assembler.imm`: value plus the diagnostics it prints.  Note the
`IMMLABEL` branch looks up the full token text `token.value`, which still
carries the leading `#`, exactly as the source does. -/
def imm (L : Labels) (t : Token) : Option (Int × List String) :=
  if t.typ = TokType.IMMINT then
    match pyIntL (t.value.toList.drop 1) with
    | none => none
    | some val =>
      if val < 0 then some (0, [errMsg t ("literal " ++ toString val ++ " must be non-negative")])
      else if val > 99 then some (99, [errMsg t ("literal " ++ toString val ++ " must be less than 100")])
      else some (val, [])
  else if t.typ = TokType.IMMLABEL then
    match L t.value with
    | none => some (0, [errMsg t ("unknown label " ++ t.value)])
    | some a => some ((a : Int), [])
  else none

/-- `Assembler.target`: value plus the diagnostics it prints. -/
def target (L : Labels) (t : Token) : Option (Int × List String) :=
  if t.typ = TokType.INT then
    match pyIntL t.value.toList with
    | none => none
    | some val =>
      if val < 0 then some (0, [errMsg t ("literal " ++ toString val ++ " must be non-negative")])
      else if val > 99 then some (99, [errMsg t ("literal " ++ toString val ++ " must be less than 100")])
      else some (val, [])
  else if t.typ = TokType.LABEL then
    match L t.value with
    | none => some (0, [errMsg t ("unknown label \x27" ++ t.value ++ "\x27")])
    | some a => some ((a : Int), [])
  else none

/-- `Assembler.word_3addr`. -/
def word_3addr (ops : List Token) : Option (Int × List String) :=
  match ops with
  | o0 :: o1 :: o2 :: _ => do
    let dst ← reg o0
    let src1 ← reg o1
    let src2 ← reg o2
    pure (dst * 100 + src1 * 10 + src2, [])
  | _ => none

/-- `Assembler.word_2addr`. -/
def word_2addr (ops : List Token) : Option (Int × List String) :=
  match ops with
  | o0 :: o1 :: _ => do
    let dst ← reg o0
    let src1 ← reg o1
    pure (dst * 100 + src1 * 10, [])
  | _ => none

/-- `Assembler.word_dstimm`. -/
def word_dstimm (L : Labels) (ops : List Token) : Option (Int × List String) :=
  match ops with
  | o0 :: o1 :: _ => do
    let dst ← reg o0
    let r ← imm L o1
    pure (dst * 100 + r.1, r.2)
  | _ => none

/-- `Assembler.word_jump`. -/
def word_jump (L : Labels) (ops : List Token) : Option (Int × List String) :=
  match ops with
  | o0 :: _ => target L o0
  | _ => none

/-- The `INSTRUCTIONS` dispatch plus `word = fmt[0] + fmt[1](self, ops)`:
the assembled word of a statement, with the diagnostics printed while
encoding it. -/
def encodeStmt (L : Labels) (s : Stmt) : Option (Int × List String) :=
  let fmt : Int × (List Token → Option (Int × List String)) :=
    match s with
    | .add _ _ _ => (0, word_3addr)
    | .ld _ _ => (0, word_2addr)
    | .neg _ _ => (1000, word_2addr)
    | .sub _ _ _ => (2000, word_3addr)
    | .mul _ _ _ => (3000, word_3addr)
    | .div _ _ _ => (4000, word_3addr)
    | .mod _ _ _ => (5000, word_3addr)
    | .round _ _ => (6000, word_2addr)
    | .ldi _ _ => (7000, word_dstimm L)
    | .jp _ => (7900, word_jump L)
    | .floor _ _ => (8000, word_2addr)
  (fmt.2 s.children).map (fun r => (fmt.1 + r.1, r.2))

/-- Pass 1 (`line_pass1` folded over the program): record each non-empty
label at the current address, then bump the address on lines carrying a
statement. -/
def pass1core : Nat → Labels → List Line → Labels
  | _, L, [] => L
  | address, L, l :: ls =>
    let lab := l.label
    let L2 := if lab ≠ "" then record lab address L else L
    pass1core (if l.stmt.isSome then address + 1 else address) L2 ls

/-- One listing row before formatting: the pieces interpolated into the
f-string of `line_pass2`. -/
structure Row where
  addr : Nat
  word : Option Int
  label : String
  instr : String
  textops : List String
  comment : String
deriving DecidableEq

def spaces (n : Nat) : String := String.mk (List.replicate n ' ')

/-- Python `f"{s:<n>}"` on a string (left-aligned, space fill). -/
def padRight (s : String) (n : Nat) : String := s ++ spaces (n - s.length)

/-- Python `f"{v:<n>}"` on an integer (right-aligned, space fill). -/
def padLeftSp (s : String) (n : Nat) : String := spaces (n - s.length) ++ s

/-- Python `f"{v:0>n}"` (right-aligned, zero fill). -/
def padLeftZero (s : String) (n : Nat) : String :=
  String.mk (List.replicate (n - s.length) '0') ++ s

/-- The f-string of `line_pass2`:
`f"{self.address:0>2} {word:4} {label:8}  {inops:20} {comment}\n"` with
`inops = f"{instr:5} {', '.join(textops)}"`. -/
def renderRow (r : Row) : String :=
  let wordField := match r.word with
    | some w => padLeftSp (toString w) 4
    | none => padRight "" 4
  let inops := padRight r.instr 5 ++ " " ++ String.intercalate ", " r.textops
  padLeftZero (toString r.addr) 2 ++ " " ++ wordField ++ " " ++ padRight r.label 8 ++
    "  " ++ padRight inops 20 ++ " " ++ r.comment ++ "\n"

/-- The ways pass 2 can die: the `assert` failing, `labels[label]` raising
`KeyError`, or the word computation raising/`None`-propagating. -/
inductive AsmErr
  | assertViol
  | keyError
  | encodeFail
deriving DecidableEq

/-- Result of `line_pass2` on one line: rows emitted (none or one), the
diagnostics printed, the address counter afterwards, and whether the line
raised. -/
structure P2Out where
  rows : List Row
  diags : List String
  address : Nat
  err : Option AsmErr
deriving DecidableEq

/-- `Assembler.line_pass2`.  The row is emitted before the `assert` runs,
and the address counter is only bumped after a successful `assert`,
exactly as in the source. -/
def line_pass2 (L : Labels) (address : Nat) (l : Line) : P2Out :=
  let label := l.label
  let comment := commentStr l
  let encoded : Option (Option Int × String × List String × List String) :=
    match l.stmt with
    | none => some (none, "", [""], [])
    | some s =>
      match encodeStmt L s with
      | none => none
      | some (w, ds) => some (some w, s.data, s.children.map Token.value, ds)
  match encoded with
  | none => ⟨[], [], address, some AsmErr.encodeFail⟩
  | some (word, instr, textops, ds) =>
    let rows : List Row :=
      if label != "" || l.stmt.isSome || comment != "" then
        [⟨address, word, label, instr, textops, comment⟩]
      else []
    if label != "" then
      match L label with
      | none => ⟨rows, ds, address, some AsmErr.keyError⟩
      | some a =>
        if a = address then
          ⟨rows, ds, if l.stmt.isSome then address + 1 else address, none⟩
        else ⟨rows, ds, address, some AsmErr.assertViol⟩
    else
      ⟨rows, ds, if l.stmt.isSome then address + 1 else address, none⟩

/-- Accumulated result of pass 2. -/
structure P2Res where
  rows : List Row
  diags : List String
  err : Option AsmErr
deriving DecidableEq

/-- Pass 2 over the whole program; an exception stops the traversal but the
rows and diagnostics already emitted are kept. -/
def pass2core (L : Labels) : Nat → List Line → P2Res
  | _, [] => ⟨[], [], none⟩
  | a, l :: ls =>
    let o := line_pass2 L a l
    match o.err with
    | some e => ⟨o.rows, o.diags, some e⟩
    | none =>
      let r := pass2core L o.address ls
      ⟨o.rows ++ r.rows, o.diags ++ r.diags, r.err⟩

def NAME : String := "AEGIS BrickRigs CPU 0.6 Assembler"

/-- The listing header written by `clear`: `f"; {Assembler.NAME}\n;\n"`. -/
def headerStr : String := "; " ++ NAME ++ "\n;\n"

/-- The mutable state of one `Assembler` instance that survives between
calls: the label dict (created in `__init__` only) and the listing text. -/
structure Driver where
  labels : Labels
  listing : String

/-- `Assembler()` : fresh labels, then `clear()`. -/
def Driver.start : Driver := ⟨emptyLabels, headerStr⟩

/-- `Assembler.clear` resets the listing only. -/
def clear (d : Driver) : Driver := { d with listing := headerStr }

/-- `Assembler.assemble`: pass 1 updates the label dict in place, pass 2
appends rows to the listing; returns the new state, the diagnostics
printed, and the exception if one was raised. -/
def assemble (d : Driver) (p : List Line) : Driver × List String × Option AsmErr :=
  let L := pass1core 0 d.labels p
  let r := pass2core L 0 p
  ({ labels := L, listing := d.listing ++ String.join (r.rows.map renderRow) }, r.diags, r.err)

/-- One assemble request as the GUI issues it: `asm.clear()` then
`asm.assemble(tree)`. -/
def clearAssemble (d : Driver) (p : List Line) : Driver × List String × Option AsmErr :=
  assemble (clear d) p

/-- Does some line of the program carry `k` as its (non-empty) label? -/
def definedInB (P : List Line) (k : String) : Bool :=
  P.any (fun l => (l.label != "") && (l.label == k))

/-! ### Well-formedness: what the grammar guarantees about tokens

A program produced by the lark grammar only ever hands `reg` a token whose
text matches `/R[0-9]|PC/i`, hands `imm` an `IMMINT`/`IMMLABEL` token, and
hands `target` an `INT`/`LABEL` token, with the texts matching the
corresponding terminal regexes. -/

/-- Is this a `CNAME` body: leading letter or underscore, then letters,
digits or underscores? -/
def isCNameL (cs : List Char) : Bool :=
  match cs with
  | [] => false
  | c :: rest => (c.isAlpha || c == '_') && rest.all (fun d => d.isAlphanum || d == '_')

/-- Non-empty and all ASCII digits (lark `INT`). -/
def allDigits (cs : List Char) : Bool :=
  !cs.isEmpty && cs.all (fun c => (charDigit? c).isSome)

/-- The terminal regex `/R[0-9]|PC/i`. -/
def regPattern (s : String) : Bool :=
  match s.toList with
  | [c0, c1] =>
    ((c0 == 'R' || c0 == 'r') && (charDigit? c1).isSome) ||
    ((c0 == 'P' || c0 == 'p') && (c1 == 'C' || c1 == 'c'))
  | _ => false

/-- The terminal `IMMINT: "#" INT`. -/
def immIntPat (s : String) : Bool :=
  match s.toList with
  | c :: rest => (c == '#') && allDigits rest
  | [] => false

/-- The terminal `IMMLABEL: "#" CNAME`. -/
def immLabelPat (s : String) : Bool :=
  match s.toList with
  | c :: rest => (c == '#') && isCNameL rest
  | [] => false

def wfReg (t : Token) : Bool := (t.typ == TokType.REG) && regPattern t.value

def wfImmTok (t : Token) : Bool :=
  ((t.typ == TokType.IMMINT) && immIntPat t.value) ||
  ((t.typ == TokType.IMMLABEL) && immLabelPat t.value)

def wfTargetTok (t : Token) : Bool :=
  ((t.typ == TokType.INT) && allDigits t.value.toList) ||
  ((t.typ == TokType.LABEL) && isCNameL t.value.toList)

/-- Operand well-formedness per `stmt` alternative of the grammar. -/
def wfStmt : Stmt → Bool
  | .jp t => wfTargetTok t
  | .ldi d i => wfReg d && wfImmTok i
  | .ld d s => wfReg d && wfReg s
  | .neg d s => wfReg d && wfReg s
  | .round d s => wfReg d && wfReg s
  | .floor d s => wfReg d && wfReg s
  | .add d s1 s2 => wfReg d && wfReg s1 && wfReg s2
  | .sub d s1 s2 => wfReg d && wfReg s1 && wfReg s2
  | .mul d s1 s2 => wfReg d && wfReg s1 && wfReg s2
  | .div d s1 s2 => wfReg d && wfReg s1 && wfReg s2
  | .mod d s1 s2 => wfReg d && wfReg s1 && wfReg s2

def wfLine (l : Line) : Bool :=
  match l.stmt with
  | some s => wfStmt s
  | none => true

def wfProgram (P : List Line) : Bool := P.all wfLine

/-! ### Concrete programs used by the claims -/

/-- The parse of the default sample text `defaulttext` (a leading blank
line, then five instruction lines). -/
def defProg : List Line :=
  [ ⟨none, none, none⟩,
    ⟨some ⟨TokType.LABELC, "loop:", 2, 1⟩,
     some (Stmt.ldi ⟨TokType.REG, "r3", 2, 13⟩ ⟨TokType.IMMINT, "#10", 2, 17⟩),
     some ⟨TokType.COMMENT, "; divisor", 2, 30⟩⟩,
    ⟨none,
     some (Stmt.div ⟨TokType.REG, "r1", 3, 14⟩ ⟨TokType.REG, "r2", 3, 18⟩ ⟨TokType.REG, "r3", 3, 22⟩),
     some ⟨TokType.COMMENT, "; r1 = r2 / 10", 3, 30⟩⟩,
    ⟨none,
     some (Stmt.mod ⟨TokType.REG, "r2", 4, 14⟩ ⟨TokType.REG, "r2", 4, 18⟩ ⟨TokType.REG, "r3", 4, 22⟩),
     some ⟨TokType.COMMENT, "; r2 = r2 % 10", 4, 30⟩⟩,
    ⟨none,
     some (Stmt.floor ⟨TokType.REG, "r1", 5, 16⟩ ⟨TokType.REG, "r1", 5, 20⟩),
     some ⟨TokType.COMMENT, "; r1 = floor", 5, 30⟩⟩,
    ⟨none,
     some (Stmt.jp ⟨TokType.LABEL, "loop", 6, 13⟩),
     none⟩ ]

/-- The parse of `JP end` / `LD r1, r1` / `end: LD r1, r1`: a forward jump
to the label on address 2. -/
def jpProg : List Line :=
  [ ⟨none, some (Stmt.jp ⟨TokType.LABEL, "end", 1, 4⟩), none⟩,
    ⟨none, some (Stmt.ld ⟨TokType.REG, "r1", 2, 4⟩ ⟨TokType.REG, "r1", 2, 8⟩), none⟩,
    ⟨some ⟨TokType.LABELC, "end:", 3, 1⟩,
     some (Stmt.ld ⟨TokType.REG, "r1", 3, 6⟩ ⟨TokType.REG, "r1", 3, 10⟩), none⟩ ]

/-- The parse of `a: LD r1, r1` / `b: LD r1, r1` / `LD r2, #b`: an
immediate-label reference to a label defined at address 1. -/
def immLblProg : List Line :=
  [ ⟨some ⟨TokType.LABELC, "a:", 1, 1⟩,
     some (Stmt.ld ⟨TokType.REG, "r1", 1, 4⟩ ⟨TokType.REG, "r1", 1, 8⟩), none⟩,
    ⟨some ⟨TokType.LABELC, "b:", 2, 1⟩,
     some (Stmt.ld ⟨TokType.REG, "r1", 2, 4⟩ ⟨TokType.REG, "r1", 2, 8⟩), none⟩,
    ⟨none,
     some (Stmt.ldi ⟨TokType.REG, "r2", 3, 4⟩ ⟨TokType.IMMLABEL, "#b", 3, 8⟩), none⟩ ]

/-- The parse of `foo: LD r1, r1` / `foo: LD r1, r1`: the same label on two
different addresses. -/
def dupProg : List Line :=
  [ ⟨some ⟨TokType.LABELC, "foo:", 1, 1⟩,
     some (Stmt.ld ⟨TokType.REG, "r1", 1, 6⟩ ⟨TokType.REG, "r1", 1, 10⟩), none⟩,
    ⟨some ⟨TokType.LABELC, "foo:", 2, 1⟩,
     some (Stmt.ld ⟨TokType.REG, "r1", 2, 6⟩ ⟨TokType.REG, "r1", 2, 10⟩), none⟩ ]

/-- The parse of `LD r1, r1` / `foo: LD r1, r1`: defines `foo` at address 1
(used as the earlier request of the cross-request counterexample). -/
def fooProg : List Line :=
  [ ⟨none, some (Stmt.ld ⟨TokType.REG, "r1", 1, 4⟩ ⟨TokType.REG, "r1", 1, 8⟩), none⟩,
    ⟨some ⟨TokType.LABELC, "foo:", 2, 1⟩,
     some (Stmt.ld ⟨TokType.REG, "r1", 2, 6⟩ ⟨TokType.REG, "r1", 2, 10⟩), none⟩ ]

/-- The parse of `JP foo` alone: references `foo` without defining it. -/
def jpFooProg : List Line :=
  [ ⟨none, some (Stmt.jp ⟨TokType.LABEL, "foo", 1, 4⟩), none⟩ ]

/-- A label-only line `foo:`. -/
def lineFooOnly : Line := ⟨some ⟨TokType.LABELC, "foo:", 1, 1⟩, none, none⟩

/-- A comment-only line. -/
def lineCommentOnly : Line := ⟨none, none, some ⟨TokType.COMMENT, "; hi", 1, 1⟩⟩

/-- A table holding only `foo ↦ 0`. -/
def tblFoo : Labels := record "foo" 0 emptyLabels

/-! ### Helper lemmas -/

/-- Pass 1 leaves every key that the program does not define untouched. -/
theorem pass1_skip (P : List Line) (a : Nat) (L : Labels) (k : String)
    (h : definedInB P k = false) : pass1core a L P k = L k := by
  induction P generalizing a L with
  | nil => rfl
  | cons l ls ih =>
    rw [definedInB, List.any_cons, Bool.or_eq_false_iff] at h
    obtain ⟨h1, h2⟩ := h
    unfold pass1core
    dsimp only
    by_cases hlab : l.label = ""
    · have hcond : ¬(l.label ≠ "") := fun hx => hx hlab
      simp only [if_neg hcond]
      exact ih _ _ h2
    · simp only [if_pos hlab]
      rw [ih _ _ h2]
      have hne : l.label ≠ k := by
        rw [Bool.and_eq_false_iff] at h1
        rcases h1 with h1 | h1
        · exact absurd (by simpa using h1) hlab
        · simpa using h1
      unfold record
      rw [if_neg (fun hk => hne hk.symm)]

/-- Two initial tables that agree outside the program's own labels lead
pass 1 to the same final table. -/
theorem pass1_congr (P : List Line) (a : Nat) (L M : Labels)
    (h : ∀ k, definedInB P k = false → M k = L k) :
    ∀ k, pass1core a M P k = pass1core a L P k := by
  induction P generalizing a L M with
  | nil =>
    intro k
    exact h k rfl
  | cons l ls ih =>
    intro k
    unfold pass1core
    dsimp only
    by_cases hlab : l.label = ""
    · have hcond : ¬(l.label ≠ "") := fun hx => hx hlab
      simp only [if_neg hcond]
      refine ih _ _ _ (fun k' hk' => h k' ?_) k
      rw [definedInB, List.any_cons, Bool.or_eq_false_iff]
      exact ⟨by simp [hlab], hk'⟩
    · simp only [if_pos hlab]
      refine ih _ _ _ (fun k' hk' => ?_) k
      unfold record
      by_cases hk : k' = l.label
      · rw [if_pos hk, if_pos hk]
      · rw [if_neg hk, if_neg hk]
        refine h k' ?_
        rw [definedInB, List.any_cons, Bool.or_eq_false_iff]
        refine ⟨?_, hk'⟩
        rw [Bool.and_eq_false_iff]
        right
        simpa using fun he => hk he.symm

/-- Rerunning pass 1 over its own output table changes nothing. -/
theorem pass1_idem (P : List Line) (a : Nat) (L : Labels) :
    pass1core a (pass1core a L P) P = pass1core a L P :=
  funext fun k => pass1_congr P a L (pass1core a L P) (fun k' hk' => pass1_skip P a L k' hk') k

/-- Whatever `reg` returns is a single decimal digit. -/
theorem reg_bound (t : Token) (d : Int) (h : reg t = some d) : 0 ≤ d ∧ d ≤ 9 := by
  unfold reg at h
  by_cases hpc : reMatchPC t.value
  · rw [if_pos hpc] at h
    cases h
    exact ⟨by norm_num, by norm_num⟩
  · rw [if_neg hpc] at h
    rcases hl : t.value.toList with _ | ⟨c0, _ | ⟨c1, rest⟩⟩ <;> rw [hl] at h
    · simp at h
    · simp at h
    · simp only [Option.map_eq_some'] at h
      obtain ⟨n, hn, hd⟩ := h
      unfold charDigit? at hn
      by_cases hb : 48 ≤ c1.toNat ∧ c1.toNat ≤ 57
      · rw [if_pos hb] at hn
        cases hn
        subst hd
        obtain ⟨hb1, hb2⟩ := hb
        constructor
        · exact Int.ofNat_nonneg _
        · omega
      · rw [if_neg hb] at hn
        cases hn

/-- A digit character is neither a minus nor a plus sign. -/
theorem charDigit_ne_sign (c : Char) (h : (charDigit? c).isSome = true) : c ≠ '-' ∧ c ≠ '+' := by
  constructor <;> rintro rfl <;> exact absurd h (by decide)

/-- Python `int` succeeds on a non-empty all-digit text. -/
theorem pyIntL_isSome_of_digits (cs : List Char) (h : allDigits cs = true) :
    ∃ n : Nat, pyIntL cs = some ((n : Int)) := by
  cases cs with
  | nil => exact absurd h (by decide)
  | cons c rest =>
    rw [allDigits, Bool.and_eq_true] at h
    obtain ⟨-, hall⟩ := h
    have hc : (charDigit? c).isSome = true := by
      rw [List.all_cons, Bool.and_eq_true] at hall
      exact hall.1
    obtain ⟨hm, hp⟩ := charDigit_ne_sign c hc
    refine ⟨(c :: rest).foldl (fun a c => a * 10 + (c.toNat - 48)) 0, ?_⟩
    unfold pyIntL
    dsimp only
    rw [if_neg hm, if_neg hp]
    unfold digitsVal
    rw [if_neg (by simp), if_pos hall]
    simp

/-- A token whose text matches `/R[0-9]|PC/i` always encodes to a digit. -/
theorem reg_isSome_of_pattern (t : Token) (h : regPattern t.value = true) :
    ∃ d, reg t = some d := by
  unfold regPattern at h
  rcases hl : t.value.toList with _ | ⟨c0, _ | ⟨c1, _ | ⟨c2, rest⟩⟩⟩ <;> rw [hl] at h
  · simp at h
  · simp at h
  case cons.cons.cons => simp at h
  rw [Bool.or_eq_true] at h
  rcases h with h | h <;> rw [Bool.and_eq_true] at h <;> obtain ⟨ha, hb⟩ := h
  · have hm : reMatchPC t.value = false := by
      unfold reMatchPC
      rw [hl]
      rw [Bool.or_eq_true] at ha
      rcases ha with ha | ha <;> rw [beq_iff_eq] at ha <;> subst ha <;>
        simp only [Bool.and_eq_false_iff] <;> left <;> decide
    obtain ⟨n, hn⟩ := Option.isSome_iff_exists.mp hb
    refine ⟨(n : Int), ?_⟩
    unfold reg
    rw [if_neg (by simp [hm]), hl]
    simp [hn]
  · have hm : reMatchPC t.value = true := by
      unfold reMatchPC
      rw [hl]
      rw [Bool.or_eq_true] at ha hb
      rw [Bool.and_eq_true, Bool.or_eq_true, Bool.or_eq_true]
      exact ⟨ha.symm.imp (fun x => x) (fun x => x) |>.symm.elim (fun x => Or.inr x) (fun x => Or.inl x), hb.elim (fun x => Or.inr x) (fun x => Or.inl x)⟩
    refine ⟨9, ?_⟩
    unfold reg
    rw [if_pos (by simp [hm])]

/-- Grammar-shaped immediate tokens never hit the `return None` fallback of
`imm`. -/
theorem imm_isSome_of_wf (L : Labels) (t : Token) (h : wfImmTok t = true) :
    ∃ r, imm L t = some r := by
  rw [wfImmTok, Bool.or_eq_true] at h
  rcases h with h | h <;> rw [Bool.and_eq_true, beq_iff_eq] at h <;> obtain ⟨htyp, hpat⟩ := h
  · rw [immIntPat] at hpat
    rcases hl : t.value.toList with _ | ⟨c, rest⟩ <;> rw [hl] at hpat
    · simp at hpat
    rw [Bool.and_eq_true] at hpat
    obtain ⟨-, hd⟩ := hpat
    obtain ⟨n, hn⟩ := pyIntL_isSome_of_digits rest hd
    have hdrop : t.value.toList.drop 1 = rest := by rw [hl]; simp
    unfold imm
    rw [if_pos htyp, hdrop, hn]
    dsimp only
    split
    · exact ⟨_, rfl⟩
    · split
      · exact ⟨_, rfl⟩
      · exact ⟨_, rfl⟩
  · unfold imm
    rw [htyp]
    rw [if_neg (by simp)]
    rw [if_pos rfl]
    cases hL : L t.value
    · exact ⟨_, rfl⟩
    · exact ⟨_, rfl⟩

/-- Grammar-shaped jump-target tokens never hit the `return None` fallback
of `target`. -/
theorem target_isSome_of_wf (L : Labels) (t : Token) (h : wfTargetTok t = true) :
    ∃ r, target L t = some r := by
  rw [wfTargetTok, Bool.or_eq_true] at h
  rcases h with h | h <;> rw [Bool.and_eq_true, beq_iff_eq] at h <;> obtain ⟨htyp, hpat⟩ := h
  · obtain ⟨n, hn⟩ := pyIntL_isSome_of_digits _ hpat
    unfold target
    rw [if_pos htyp, hn]
    dsimp only
    split
    · exact ⟨_, rfl⟩
    · split
      · exact ⟨_, rfl⟩
      · exact ⟨_, rfl⟩
  · unfold target
    rw [htyp]
    rw [if_neg (by simp)]
    rw [if_pos rfl]
    cases hL : L t.value
    · exact ⟨_, rfl⟩
    · exact ⟨_, rfl⟩

theorem word_3addr_isSome (o0 o1 o2 : Token) (rest : List Token)
    (h0 : ∃ d, reg o0 = some d) (h1 : ∃ d, reg o1 = some d) (h2 : ∃ d, reg o2 = some d) :
    ∃ r, word_3addr (o0 :: o1 :: o2 :: rest) = some r := by
  obtain ⟨d0, e0⟩ := h0
  obtain ⟨d1, e1⟩ := h1
  obtain ⟨d2, e2⟩ := h2
  exact ⟨(d0 * 100 + d1 * 10 + d2, []), by simp [word_3addr, e0, e1, e2]⟩

theorem word_2addr_isSome (o0 o1 : Token) (rest : List Token)
    (h0 : ∃ d, reg o0 = some d) (h1 : ∃ d, reg o1 = some d) :
    ∃ r, word_2addr (o0 :: o1 :: rest) = some r := by
  obtain ⟨d0, e0⟩ := h0
  obtain ⟨d1, e1⟩ := h1
  exact ⟨(d0 * 100 + d1 * 10, []), by simp [word_2addr, e0, e1]⟩

/-- A regex-conformant register token gives `reg` a value. -/
theorem wfReg_reg_isSome (t : Token) (h : wfReg t = true) : ∃ d, reg t = some d := by
  rw [wfReg, Bool.and_eq_true] at h
  exact reg_isSome_of_pattern t h.2

/-- Every grammar-shaped statement encodes to an actual word. -/
theorem encodeStmt_isSome_of_wf (L : Labels) (s : Stmt) (h : wfStmt s = true) :
    ∃ r, encodeStmt L s = some r := by
  cases s <;> rw [wfStmt] at h
  case jp t =>
    obtain ⟨r, hr⟩ := target_isSome_of_wf L t h
    exact ⟨(7900 + r.1, r.2), by simp [encodeStmt, Stmt.children, word_jump, hr]⟩
  case ldi d i =>
    rw [Bool.and_eq_true] at h
    obtain ⟨dv, hd⟩ := wfReg_reg_isSome d h.1
    obtain ⟨r, hr⟩ := imm_isSome_of_wf L i h.2
    exact ⟨(7000 + (dv * 100 + r.1), r.2),
      by simp [encodeStmt, Stmt.children, word_dstimm, hd, hr]⟩
  case ld d s1 =>
    rw [Bool.and_eq_true] at h
    obtain ⟨r, hr⟩ := word_2addr_isSome d s1 [] (wfReg_reg_isSome d h.1) (wfReg_reg_isSome s1 h.2)
    exact ⟨(0 + r.1, r.2), by simp [encodeStmt, Stmt.children, hr]⟩
  case neg d s1 =>
    rw [Bool.and_eq_true] at h
    obtain ⟨r, hr⟩ := word_2addr_isSome d s1 [] (wfReg_reg_isSome d h.1) (wfReg_reg_isSome s1 h.2)
    exact ⟨(1000 + r.1, r.2), by simp [encodeStmt, Stmt.children, hr]⟩
  case round d s1 =>
    rw [Bool.and_eq_true] at h
    obtain ⟨r, hr⟩ := word_2addr_isSome d s1 [] (wfReg_reg_isSome d h.1) (wfReg_reg_isSome s1 h.2)
    exact ⟨(6000 + r.1, r.2), by simp [encodeStmt, Stmt.children, hr]⟩
  case floor d s1 =>
    rw [Bool.and_eq_true] at h
    obtain ⟨r, hr⟩ := word_2addr_isSome d s1 [] (wfReg_reg_isSome d h.1) (wfReg_reg_isSome s1 h.2)
    exact ⟨(8000 + r.1, r.2), by simp [encodeStmt, Stmt.children, hr]⟩
  case add d s1 s2 =>
    rw [Bool.and_eq_true, Bool.and_eq_true] at h
    obtain ⟨r, hr⟩ := word_3addr_isSome d s1 s2 []
      (wfReg_reg_isSome d h.1.1) (wfReg_reg_isSome s1 h.1.2) (wfReg_reg_isSome s2 h.2)
    exact ⟨(0 + r.1, r.2), by simp [encodeStmt, Stmt.children, hr]⟩
  case sub d s1 s2 =>
    rw [Bool.and_eq_true, Bool.and_eq_true] at h
    obtain ⟨r, hr⟩ := word_3addr_isSome d s1 s2 []
      (wfReg_reg_isSome d h.1.1) (wfReg_reg_isSome s1 h.1.2) (wfReg_reg_isSome s2 h.2)
    exact ⟨(2000 + r.1, r.2), by simp [encodeStmt, Stmt.children, hr]⟩
  case mul d s1 s2 =>
    rw [Bool.and_eq_true, Bool.and_eq_true] at h
    obtain ⟨r, hr⟩ := word_3addr_isSome d s1 s2 []
      (wfReg_reg_isSome d h.1.1) (wfReg_reg_isSome s1 h.1.2) (wfReg_reg_isSome s2 h.2)
    exact ⟨(3000 + r.1, r.2), by simp [encodeStmt, Stmt.children, hr]⟩
  case div d s1 s2 =>
    rw [Bool.and_eq_true, Bool.and_eq_true] at h
    obtain ⟨r, hr⟩ := word_3addr_isSome d s1 s2 []
      (wfReg_reg_isSome d h.1.1) (wfReg_reg_isSome s1 h.1.2) (wfReg_reg_isSome s2 h.2)
    exact ⟨(4000 + r.1, r.2), by simp [encodeStmt, Stmt.children, hr]⟩
  case mod d s1 s2 =>
    rw [Bool.and_eq_true, Bool.and_eq_true] at h
    obtain ⟨r, hr⟩ := word_3addr_isSome d s1 s2 []
      (wfReg_reg_isSome d h.1.1) (wfReg_reg_isSome s1 h.1.2) (wfReg_reg_isSome s2 h.2)
    exact ⟨(5000 + r.1, r.2), by simp [encodeStmt, Stmt.children, hr]⟩

/-- A well-formed line cannot raise out of the word computation. -/
theorem line_pass2_ne_encodeFail (L : Labels) (a : Nat) (l : Line) (h : wfLine l = true) :
    (line_pass2 L a l).err ≠ some AsmErr.encodeFail := by
  unfold line_pass2
  cases hs : l.stmt with
  | none =>
    dsimp only
    split
    · split
      · simp
      · split <;> simp
    · simp
  | some s =>
    rw [wfLine, hs] at h
    obtain ⟨r, hr⟩ := encodeStmt_isSome_of_wf L s h
    dsimp only
    rw [hr]
    dsimp only
    split
    · split
      · simp
      · split <;> simp
    · simp

/-- Pass 2 over a well-formed program never dies in the encoders. -/
theorem pass2core_ne_encodeFail (L : Labels) (P : List Line) (a : Nat)
    (h : wfProgram P = true) :
    (pass2core L a P).err ≠ some AsmErr.encodeFail := by
  induction P generalizing a with
  | nil => simp [pass2core]
  | cons l ls ih =>
    rw [wfProgram, List.all_cons, Bool.and_eq_true] at h
    obtain ⟨h1, h2⟩ := h
    unfold pass2core
    dsimp only
    cases he : (line_pass2 L a l).err with
    | some e =>
      have := line_pass2_ne_encodeFail L a l h1
      rw [he] at this
      simpa using this
    | none =>
      dsimp only
      exact ih _ h2

/-! ### The claims -/

/-- Claim C1: for every three-register statement (ADD/SUB/MUL/DIV/MOD over
register tokens that `reg` accepts with digits `d1`, `d2`, `d3`) the
assembled word is the opcode base (ADD 0, SUB 2000, MUL 3000, DIV 4000,
MOD 5000) plus `d1*100 + d2*10 + d3`, and for every two-register statement
(LD/NEG/ROUND/FLOOR, bases 0/1000/6000/8000) it is the base plus
`d1*100 + d2*10`; all register digits lie in `[0, 9]`, and no diagnostics
are emitted. -/
theorem claim_c1 (L : Labels) (t1 t2 t3 : Token) (d1 d2 d3 : Int)
    (h1 : reg t1 = some d1) (h2 : reg t2 = some d2) (h3 : reg t3 = some d3) :
    (encodeStmt L (Stmt.add t1 t2 t3) = some (0 + (d1 * 100 + d2 * 10 + d3), []) ∧
     encodeStmt L (Stmt.sub t1 t2 t3) = some (2000 + (d1 * 100 + d2 * 10 + d3), []) ∧
     encodeStmt L (Stmt.mul t1 t2 t3) = some (3000 + (d1 * 100 + d2 * 10 + d3), []) ∧
     encodeStmt L (Stmt.div t1 t2 t3) = some (4000 + (d1 * 100 + d2 * 10 + d3), []) ∧
     encodeStmt L (Stmt.mod t1 t2 t3) = some (5000 + (d1 * 100 + d2 * 10 + d3), [])) ∧
    (encodeStmt L (Stmt.ld t1 t2) = some (0 + (d1 * 100 + d2 * 10), []) ∧
     encodeStmt L (Stmt.neg t1 t2) = some (1000 + (d1 * 100 + d2 * 10), []) ∧
     encodeStmt L (Stmt.round t1 t2) = some (6000 + (d1 * 100 + d2 * 10), []) ∧
     encodeStmt L (Stmt.floor t1 t2) = some (8000 + (d1 * 100 + d2 * 10), [])) ∧
    (0 ≤ d1 ∧ d1 ≤ 9) ∧ (0 ≤ d2 ∧ d2 ≤ 9) ∧ (0 ≤ d3 ∧ d3 ≤ 9) := by
  refine ⟨⟨?_, ?_, ?_, ?_, ?_⟩, ⟨?_, ?_, ?_, ?_⟩,
    reg_bound t1 d1 h1, reg_bound t2 d2 h2, reg_bound t3 d3 h3⟩ <;>
    simp [encodeStmt, Stmt.children, word_3addr, word_2addr, h1, h2, h3]

/-- Claim C1 witness: `SUB r1, r2, r3` assembles to `2000 + 123`. -/
theorem claim_c1_witness :
    encodeStmt emptyLabels
      (Stmt.sub ⟨TokType.REG, "r1", 1, 5⟩ ⟨TokType.REG, "r2", 1, 9⟩ ⟨TokType.REG, "r3", 1, 13⟩) =
      some (2000 + ((1 : Int) * 100 + 2 * 10 + 3), []) :=
  (claim_c1 emptyLabels ⟨TokType.REG, "r1", 1, 5⟩ ⟨TokType.REG, "r2", 1, 9⟩
    ⟨TokType.REG, "r3", 1, 13⟩ 1 2 3 (by decide) (by decide) (by decide)).1.2.1

/-- Claim C8: a register token `R<d>` (either case) encodes to the digit
`d`, a `PC` token (any case) encodes to 9, and that is exactly the
encoding of `R9`. -/
theorem claim_c8 (t u : Token) (c0 c1 p0 p1 : Char) (n : Nat)
    (ht : t.value.toList = [c0, c1]) (hc0 : c0 = 'R' ∨ c0 = 'r')
    (hc1 : charDigit? c1 = some n)
    (hu : u.value.toList = [p0, p1]) (hp0 : p0 = 'P' ∨ p0 = 'p')
    (hp1 : p1 = 'C' ∨ p1 = 'c') :
    reg t = some (n : Int) ∧ reg u = some 9 ∧ reg ⟨TokType.REG, "R9", 1, 1⟩ = some 9 := by
  refine ⟨?_, ?_, by decide⟩
  · have hm : reMatchPC t.value = false := by
      unfold reMatchPC
      rw [ht]
      dsimp only
      rcases hc0 with h | h <;> subst h <;> rw [Bool.and_eq_false_iff] <;> left <;> decide
    unfold reg
    rw [if_neg (by simp [hm]), ht]
    simp [hc1]
  · have hm : reMatchPC u.value = true := by
      unfold reMatchPC
      rw [hu]
      dsimp only
      rcases hp0 with h | h <;> rcases hp1 with h' | h' <;> subst h <;> subst h' <;> decide
    unfold reg
    rw [if_pos (by simp [hm])]

/-- Claim C8 witness: `r7` encodes to 7 and `Pc` encodes to 9, the same
digit as `R9`. -/
theorem claim_c8_witness :
    reg ⟨TokType.REG, "r7", 1, 1⟩ = some 7 ∧ reg ⟨TokType.REG, "Pc", 1, 4⟩ = some 9 ∧
    reg ⟨TokType.REG, "R9", 1, 1⟩ = some 9 :=
  claim_c8 ⟨TokType.REG, "r7", 1, 1⟩ ⟨TokType.REG, "Pc", 1, 4⟩ 'r' '7' 'P' 'c' 7
    (by decide) (Or.inr rfl) (by decide) (by decide) (Or.inl rfl) (Or.inr rfl)

/-- Claim C4: a literal integer operand below 0 is clamped to 0 and one
above 99 is clamped to 99, in both the immediate (`imm`) and the jump
(`target`) position, each clamp emitting exactly one diagnostic while
still producing a value; an immediate-label or jump-label absent from the
table resolves to 0 with exactly one diagnostic; concretely `LD r1,#150`
encodes to word 7199 with one diagnostic, and `LD r1,#nosuch` encodes to
word 7100 (operand part 100, imm defaulted to 0) with one diagnostic. -/
theorem claim_c4 (L : Labels) (t u v w x y : Token) (a b p q : Int)
    (hti : t.typ = TokType.IMMINT) (hta : pyIntL (t.value.toList.drop 1) = some a)
    (haneg : a < 0)
    (hui : u.typ = TokType.IMMINT) (hub : pyIntL (u.value.toList.drop 1) = some b)
    (hbbig : b > 99)
    (hxi : x.typ = TokType.INT) (hxa : pyIntL x.value.toList = some p) (hpneg : p < 0)
    (hyi : y.typ = TokType.INT) (hyb : pyIntL y.value.toList = some q) (hqbig : q > 99)
    (hv : v.typ = TokType.IMMLABEL) (hvL : L v.value = none)
    (hw : w.typ = TokType.LABEL) (hwL : L w.value = none) :
    imm L t = some (0, [errMsg t ("literal " ++ toString a ++ " must be non-negative")]) ∧
    imm L u = some (99, [errMsg u ("literal " ++ toString b ++ " must be less than 100")]) ∧
    target L x = some (0, [errMsg x ("literal " ++ toString p ++ " must be non-negative")]) ∧
    target L y = some (99, [errMsg y ("literal " ++ toString q ++ " must be less than 100")]) ∧
    imm L v = some (0, [errMsg v ("unknown label " ++ v.value)]) ∧
    target L w = some (0, [errMsg w ("unknown label \x27" ++ w.value ++ "\x27")]) ∧
    encodeStmt emptyLabels
      (Stmt.ldi ⟨TokType.REG, "r1", 1, 4⟩ ⟨TokType.IMMINT, "#150", 1, 8⟩) =
      some (7199, ["1:8 Error: literal 150 must be less than 100"]) ∧
    encodeStmt emptyLabels
      (Stmt.ldi ⟨TokType.REG, "r1", 1, 4⟩ ⟨TokType.IMMLABEL, "#nosuch", 1, 8⟩) =
      some (7100, ["1:8 Error: unknown label #nosuch"]) := by
  have hb0 : ¬(b < 0) := by omega
  have hq0 : ¬(q < 0) := by omega
  refine ⟨?_, ?_, ?_, ?_, ?_, ?_, by decide, by decide⟩
  · unfold imm
    rw [if_pos hti, hta]
    dsimp only
    rw [if_pos haneg]
  · unfold imm
    rw [if_pos hui, hub]
    dsimp only
    rw [if_neg hb0, if_pos hbbig]
  · unfold target
    rw [if_pos hxi, hxa]
    dsimp only
    rw [if_pos hpneg]
  · unfold target
    rw [if_pos hyi, hyb]
    dsimp only
    rw [if_neg hq0, if_pos hqbig]
  · unfold imm
    rw [hv, if_neg (by simp), if_pos rfl, hvL]
  · unfold target
    rw [hw, if_neg (by simp), if_pos rfl, hwL]

/-- Claim C4 witness: a hypothetical `#-5` immediate clamps to 0 with one
diagnostic. -/
theorem claim_c4_witness :
    imm emptyLabels ⟨TokType.IMMINT, "#-5", 2, 8⟩ =
      some (0, [errMsg ⟨TokType.IMMINT, "#-5", 2, 8⟩
        ("literal " ++ toString (-5 : Int) ++ " must be non-negative")]) :=
  (claim_c4 emptyLabels ⟨TokType.IMMINT, "#-5", 2, 8⟩ ⟨TokType.IMMINT, "#150", 1, 8⟩
    ⟨TokType.IMMLABEL, "#nosuch", 1, 8⟩ ⟨TokType.LABEL, "nope", 6, 4⟩
    ⟨TokType.INT, "-3", 4, 4⟩ ⟨TokType.INT, "150", 5, 4⟩ (-5) 150 (-3) 150
    rfl (by decide) (by decide) rfl (by decide) (by decide)
    rfl (by decide) (by decide) rfl (by decide) (by decide)
    rfl rfl rfl rfl).1

/-- Claim C2 is false of the code: in `a: LD r1,r1 / b: LD r1,r1 / LD r2,#b`
pass 1 records `b ↦ 1`, yet the `LD r2,#b` statement still emits an
unknown-label diagnostic and encodes word 7200 (imm defaulted to 0, not
7201), because `imm` looks up the full token text `#b` while the table
holds the bare name `b`. -/
theorem claim_c2_immlabel_unresolved :
    pass1core 0 emptyLabels immLblProg "b" = some 1 ∧
    (pass1core 0 emptyLabels immLblProg) "#b" = none ∧
    (pass2core (pass1core 0 emptyLabels immLblProg) 0 immLblProg).diags =
      ["3:8 Error: unknown label #b"] ∧
    (pass2core (pass1core 0 emptyLabels immLblProg) 0 immLblProg).rows.map Row.word =
      [some 110, some 110, some 7200] := by
  refine ⟨by decide, by decide, by decide, by decide⟩

/-- Claim C3: a `JP` whose target is a bare label that pass 1 resolved to
address `a` assembles to `7900 + a` with no diagnostic; concretely `JP end`
at address 0 with `end` at address 2 gives word 7902, and the default
sample program occupies addresses 0–4 with its `JP loop` assembling
to 7900. -/
theorem claim_c3 (P : List Line) (t : Token) (a : Nat)
    (ht : t.typ = TokType.LABEL) (ha : pass1core 0 emptyLabels P t.value = some a) :
    encodeStmt (pass1core 0 emptyLabels P) (Stmt.jp t) = some (7900 + (a : Int), []) ∧
    (pass2core (pass1core 0 emptyLabels jpProg) 0 jpProg).rows.map Row.word =
      [some 7902, some 110, some 110] ∧
    (pass2core (pass1core 0 emptyLabels jpProg) 0 jpProg).rows.map Row.addr = [0, 1, 2] ∧
    pass1core 0 emptyLabels defProg "loop" = some 0 ∧
    (pass2core (pass1core 0 emptyLabels defProg) 0 defProg).rows.map Row.addr =
      [0, 1, 2, 3, 4] ∧
    (pass2core (pass1core 0 emptyLabels defProg) 0 defProg).rows.map Row.word =
      [some 7310, some 4123, some 5223, some 8110, some 7900] ∧
    (pass2core (pass1core 0 emptyLabels defProg) 0 defProg).err = none := by
  refine ⟨?_, by decide, by decide, by decide, by decide, by decide, by decide⟩
  unfold encodeStmt Stmt.children word_jump target
  dsimp only
  rw [if_neg (by rw [ht]; simp), if_pos ht, ha]
  rfl

/-- Claim C3 witness: the forward reference `JP end` of `jpProg` resolves
to address 2. -/
theorem claim_c3_witness :
    encodeStmt (pass1core 0 emptyLabels jpProg) (Stmt.jp ⟨TokType.LABEL, "end", 1, 4⟩) =
      some (7900 + ((2 : Nat) : Int), []) :=
  (claim_c3 jpProg ⟨TokType.LABEL, "end", 1, 4⟩ 2 rfl (by decide)).1

/-- Claim C5 is false of the code: on the parsed program
`foo: LD r1,r1 / foo: LD r1,r1` pass 1 last-write-wins records `foo ↦ 1`,
so in pass 2 the first labeled line (listed at address 0) fails the
`assert`: the internal-invariant failure is reachable from parser-accepted
input. -/
theorem claim_c5_assert_reachable :
    (pass2core (pass1core 0 emptyLabels dupProg) 0 dupProg).err = some AsmErr.assertViol ∧
    pass1core 0 emptyLabels dupProg "foo" = some 1 ∧
    (pass2core (pass1core 0 emptyLabels dupProg) 0 dupProg).rows.map Row.addr = [0] := by
  refine ⟨by decide, by decide, by decide⟩

/-- Claim C6 is false of the code: assembling `JP foo` (which never defines
`foo`) on a fresh driver and on the same driver after a prior request that
defined `foo` at address 1 yields different diagnostics (unknown label
versus none) and different listings (word 7900 versus 7901), even though
`clear` ran before each request: the label dict survives `clear`, so the
output does not depend on the current text alone. -/
theorem claim_c6_cex :
    (clearAssemble (clearAssemble Driver.start fooProg).1 jpFooProg).2.1 ≠
      (clearAssemble Driver.start jpFooProg).2.1 ∧
    (clearAssemble (clearAssemble Driver.start fooProg).1 jpFooProg).1.listing ≠
      (clearAssemble Driver.start jpFooProg).1.listing ∧
    (clearAssemble Driver.start fooProg).1.labels "foo" = some 1 ∧
    (clearAssemble (clearAssemble Driver.start fooProg).1 jpFooProg).2.1 = [] ∧
    (clearAssemble Driver.start jpFooProg).2.1 =
      ["1:4 Error: unknown label \x27foo\x27"] := by
  refine ⟨by decide, by decide, by decide, by decide, by decide⟩

/-- Claim C6 amended: `clear` resets only the listing; the label dict
persists across assemble requests, so a label `k` that the current program
never defines still resolves — without any diagnostic — to whatever
address an earlier request left in the dict. -/
theorem claim_c6_amended (L0 : Labels) (lst : String) (P : List Line) (k : String)
    (a : Nat) (t : Token)
    (hk : definedInB P k = false) (ha : L0 k = some a)
    (ht : t.typ = TokType.LABEL) (hv : t.value = k) :
    (clear ⟨L0, lst⟩).labels = L0 ∧
    (assemble ⟨L0, lst⟩ P).1.labels k = some a ∧
    target (pass1core 0 L0 P) t = some ((a : Int), []) := by
  refine ⟨rfl, ?_, ?_⟩
  · show pass1core 0 L0 P k = some a
    rw [pass1_skip P 0 L0 k hk, ha]
  · unfold target
    rw [if_neg (by rw [ht]; simp), if_pos ht, hv, pass1_skip P 0 L0 k hk, ha]

/-- Claim C6 amended witness: after a request left `bar ↦ 7` in the dict,
a later `JP bar` resolves to 7 with no diagnostic although `fooProg` never
defines `bar`. -/
theorem claim_c6_amended_witness :
    target (pass1core 0 (record "bar" 7 emptyLabels) fooProg) ⟨TokType.LABEL, "bar", 1, 4⟩ =
      some (((7 : Nat) : Int), []) :=
  (claim_c6_amended (record "bar" 7 emptyLabels) "" fooProg "bar" 7
    ⟨TokType.LABEL, "bar", 1, 4⟩ (by decide) (by decide) rfl rfl).2.2

/-- Claim C7: running `clear(); assemble(tree)` twice on the same driver
with the same program produces byte-identical listings and identical
diagnostic sequences (and the same exception outcome). -/
theorem claim_c7 (L0 : Labels) (lst : String) (P : List Line) :
    (clearAssemble (clearAssemble ⟨L0, lst⟩ P).1 P).1.listing =
      (clearAssemble ⟨L0, lst⟩ P).1.listing ∧
    (clearAssemble (clearAssemble ⟨L0, lst⟩ P).1 P).2 = (clearAssemble ⟨L0, lst⟩ P).2 := by
  unfold clearAssemble assemble clear
  dsimp only
  rw [pass1_idem]
  exact ⟨rfl, rfl⟩

/-- Claim C9 is false as stated: the row emitted for the label-only line
`foo:` at address 0 carries `00` in its address field — the address field
is not empty (only the word field is), although the line indeed consumes
no address and a fully blank line emits nothing. -/
theorem claim_c9_cex :
    (line_pass2 tblFoo 0 lineFooOnly).rows.map renderRow =
      ["00      foo" ++ spaces 28 ++ "\n"] ∧
    ((line_pass2 tblFoo 0 lineFooOnly).rows.map (fun r => (renderRow r).take 2)) = ["00"] ∧
    "00" ≠ "  " ∧ ("00" : String) ≠ "" ∧
    (line_pass2 tblFoo 0 lineFooOnly).err = none ∧
    (line_pass2 tblFoo 0 lineFooOnly).address = 0 := by
  refine ⟨by decide, by decide, by decide, by decide, by decide, by decide⟩

/-- Claim C9 amended: for a statement-less line, if the label or the
comment is non-empty the driver emits exactly one row whose word field is
empty (`none`) and whose address field shows the current address counter,
and the counter does not advance; a fully blank line emits no row at
all. -/
theorem claim_c9_amended (L : Labels) (a : Nat) (l : Line) (hs : l.stmt = none) :
    ((l.label ≠ "" ∨ commentStr l ≠ "") →
      (line_pass2 L a l).rows = [⟨a, none, l.label, "", [""], commentStr l⟩] ∧
      (line_pass2 L a l).address = a) ∧
    (l.label = "" → commentStr l = "" →
      (line_pass2 L a l).rows = [] ∧ (line_pass2 L a l).address = a) := by
  by_cases hl : l.label = ""
  · constructor
    · intro hor
      have hc : commentStr l ≠ "" := by
        rcases hor with h | h
        · exact absurd hl h
        · exact h
      have hcB : (commentStr l != "") = true := bne_iff_ne.mpr hc
      simp [line_pass2, hs, hl, hcB]
    · intro h1 h2
      simp [line_pass2, hs, hl, h2]
  · have hlB : (l.label != "") = true := bne_iff_ne.mpr hl
    constructor
    · intro _
      cases hL : L l.label with
      | none => simp [line_pass2, hs, hlB, hL]
      | some a1 =>
        by_cases haa : a1 = a
        · simp [line_pass2, hs, hlB, hL, haa]
        · simp [line_pass2, hs, hlB, hL, haa]
    · intro h1 _
      exact absurd h1 hl

/-- Claim C9 amended witness: a comment-only line at address 3 emits one
word-less row showing address 3, and the counter stays at 3. -/
theorem claim_c9_amended_witness :
    (line_pass2 emptyLabels 3 lineCommentOnly).rows = [⟨3, none, "", "", [""], "; hi"⟩] ∧
    (line_pass2 emptyLabels 3 lineCommentOnly).address = 3 :=
  (claim_c9_amended emptyLabels 3 lineCommentOnly rfl).1 (Or.inr (by decide))

/-- Claim C10: tokens shaped as the grammar guarantees never reach the
`return None` fallbacks — `imm` and `target` always produce a value — and
pass 2 over a grammar-conformant program never fails in the word
computation: every assembled word is an actual integer. -/
theorem claim_c10 (L L0 : Labels) (t u : Token) (s : Stmt) (P : List Line)
    (h1 : wfImmTok t = true) (h2 : wfTargetTok u = true) (h3 : wfStmt s = true)
    (h4 : wfProgram P = true) :
    imm L t ≠ none ∧ target L u ≠ none ∧ (∃ r, encodeStmt L s = some r) ∧
    (pass2core (pass1core 0 L0 P) 0 P).err ≠ some AsmErr.encodeFail := by
  obtain ⟨r1, e1⟩ := imm_isSome_of_wf L t h1
  obtain ⟨r2, e2⟩ := target_isSome_of_wf L u h2
  exact ⟨by simp [e1], by simp [e2], encodeStmt_isSome_of_wf L s h3,
    pass2core_ne_encodeFail _ P 0 h4⟩

/-- Claim C10 witness: concrete grammar-shaped tokens and the default
sample program all encode successfully. -/
theorem claim_c10_witness :
    imm emptyLabels ⟨TokType.IMMLABEL, "#b", 3, 8⟩ ≠ none ∧
    target emptyLabels ⟨TokType.LABEL, "loop", 6, 13⟩ ≠ none ∧
    (∃ r, encodeStmt emptyLabels (Stmt.jp ⟨TokType.LABEL, "loop", 6, 13⟩) = some r) ∧
    (pass2core (pass1core 0 emptyLabels defProg) 0 defProg).err ≠ some AsmErr.encodeFail :=
  claim_c10 emptyLabels emptyLabels ⟨TokType.IMMLABEL, "#b", 3, 8⟩
    ⟨TokType.LABEL, "loop", 6, 13⟩ (Stmt.jp ⟨TokType.LABEL, "loop", 6, 13⟩) defProg
    (by decide) (by decide) (by decide) (by decide)

end BrAsm
